import Mathlib

/-!
# Scanner evaluator contract and the OpenFace kernel

A shallow embedding of

* `scanner/eval/evaluator.h`: `InputFormat`, `Row`, `Column`, `BatchedColumns`,
  the base class `Evaluator` (`configure`, `reset`, `set_profiler`) and the
  macros `ROW_BUFFER`, `ROW_SIZE`, `INSERT_ROW`;
* `stdlib/openface/openface_kernel.cpp`: `OpenFaceEvaluator::execute`.

Conventions.

* `u8*` is an address (`Ptr`), memory is a byte-addressed map `Mem`.
* `size_t` is `Nat`; `i32` is `Int`, and the one narrowing conversion of the
  kernel (`i32 input_count = rows.size()`) is made explicit by `toI32`.
* `f32` / `f64` values are exact rationals (rounding is not modelled); the box
  adjustment is given a second time over `F64`, which adds the infinities and NaN.
* `operator[]` on a `std::vector` is checked: an access outside the vector is
  the fault `Fault.out_of_range`.
* OpenCV, OpenFace, protobuf decoding and `VideoKernel::check_frame_info` are
  not part of the embedded sources; they are the fields of `Vision`, over which
  every statement about `execute` is universally quantified.
-/

namespace scanner

/-! ## evaluator.h -/

/-- The struct InputFormat: frame width and height (both i32). -/
structure InputFormat where
  width_ : Int
  height_ : Int
deriving DecidableEq, Repr

namespace InputFormat

/-- The default constructor InputFormat() : width_(0), height_(0). -/
def default : InputFormat := ⟨0, 0⟩

/-- The constructor InputFormat(i32 width, i32 height). -/
def mk2 (width height : Int) : InputFormat := ⟨width, height⟩

/-- The accessor width(). -/
def width (f : InputFormat) : Int := f.width_

/-- The accessor height(). -/
def height (f : InputFormat) : Int := f.height_

end InputFormat

/-- An address, the value of a u8 pointer. -/
abbrev Ptr := Nat

/-- The struct Row: a buffer pointer and a size. -/
structure Row where
  buffer : Ptr
  size : Nat
deriving DecidableEq, Repr

/-- The struct Column: a vector of rows. -/
structure Column where
  rows : List Row
deriving DecidableEq, Repr

/-- The alias BatchedColumns = std::vector<Column>. -/
abbrev BatchedColumns := List Column

/-- The data members of the base class Evaluator; the profiler is a nullable
pointer, null (none) by the member initialiser, and metadata_ is default
constructed. -/
structure Evaluator (Profiler : Type) where
  profiler_ : Option Profiler
  metadata_ : InputFormat

namespace Evaluator

variable {Profiler : Type}

/-- A freshly constructed evaluator: profiler_ = nullptr, metadata_ = InputFormat(). -/
def fresh : Evaluator Profiler := ⟨none, InputFormat.default⟩

/-- The default configure: metadata_ = metadata. -/
def configure (e : Evaluator Profiler) (metadata : InputFormat) : Evaluator Profiler :=
  { e with metadata_ := metadata }

/-- The default reset: the empty body. -/
def reset (e : Evaluator Profiler) : Evaluator Profiler := e

/-- The member set_profiler: profiler_ = profiler. -/
def set_profiler (e : Evaluator Profiler) (profiler : Option Profiler) : Evaluator Profiler :=
  { e with profiler_ := profiler }

end Evaluator

/-- One call on the base evaluator, of those that touch its data members. -/
inductive Call (Profiler : Type) where
  | configure (metadata : InputFormat)
  | reset
  | set_profiler (profiler : Option Profiler)

/-- Perform one call. -/
def Call.apply {Profiler : Type} (e : Evaluator Profiler) : Call Profiler → Evaluator Profiler
  | .configure m => e.configure m
  | .reset => e.reset
  | .set_profiler p => e.set_profiler p

/-- Perform a sequence of calls, first to last. -/
def runCalls {Profiler : Type} (e : Evaluator Profiler) (cs : List (Call Profiler)) :
    Evaluator Profiler :=
  cs.foldl Call.apply e

/-- A fault of the checked vector accesses. -/
inductive Fault where
  | out_of_range
deriving DecidableEq, Repr

/-- The macro ROW_BUFFER(column, row) = column.rows[row].buffer. -/
def ROW_BUFFER (column : Column) (row : Nat) : Except Fault Ptr :=
  match column.rows[row]? with
  | some r => .ok r.buffer
  | none => .error .out_of_range

/-- The macro ROW_SIZE(column, row) = column.rows[row].size. -/
def ROW_SIZE (column : Column) (row : Nat) : Except Fault Nat :=
  match column.rows[row]? with
  | some r => .ok r.size
  | none => .error .out_of_range

/-- The macro INSERT_ROW(column, buffer, size) = column.rows.push_back(Row{buffer, size}). -/
def INSERT_ROW (column : Column) (buffer : Ptr) (size : Nat) : Column :=
  { rows := column.rows ++ [Row.mk buffer size] }

/-! ## openface_kernel.cpp -/

/-- Byte-addressed memory. -/
abbrev Mem := Ptr → UInt8

/-- The checked element access of a std::vector. -/
def vecAt {α : Type} (xs : List α) (i : Nat) : Except Fault α :=
  match xs[i]? with
  | some x => .ok x
  | none => .error .out_of_range

/-- The i32 value a narrowing conversion gives (two's complement wrap-around). -/
def toI32 (n : Int) : Int := (n + 2 ^ 31) % 2 ^ 32 - 2 ^ 31

/-- The frame description kept by VideoKernel (frame_info_): width and height. -/
structure FrameInfo where
  width_ : Int
  height_ : Int
deriving DecidableEq, Repr

/-- The accessor width() of the frame description. -/
def FrameInfo.width (f : FrameInfo) : Int := f.width_

/-- The accessor height() of the frame description. -/
def FrameInfo.height (f : FrameInfo) : Int := f.height_

/-- The message BoundingBox, its four corner coordinates. -/
structure BoundingBox where
  x1 : ℚ
  y1 : ℚ
  x2 : ℚ
  y2 : ℚ
deriving DecidableEq, Repr

/-- The type cv::Rect_<double>: top-left corner, width and height. -/
structure Rect where
  x : ℚ
  y : ℚ
  width : ℚ
  height : ℚ
deriving DecidableEq, Repr

/-- The header of a cv::Mat of type CV_8UC3 built over external data: it owns
nothing, data is the pointer it was given. -/
structure Mat where
  rows : Int
  cols : Int
  data : Ptr
deriving DecidableEq, Repr

/-- The three-channel part of a cv::Scalar. -/
structure Scalar where
  v0 : ℚ
  v1 : ℚ
  v2 : ℚ
deriving DecidableEq, Repr

/-- The type cv::Point3f. -/
structure Point3f where
  x : ℚ
  y : ℚ
  z : ℚ
deriving DecidableEq, Repr

/-- What execute calls outside the embedded sources: VideoKernel::check_frame_info,
deserialize_proto_vector, OpenCV and OpenFace. A by-reference object argument is
returned updated; the drawing functions, which receive the image img, are the ones
that write memory. -/
structure Vision where
  /-- The type cv::Mat of the grey image (its own allocation). -/
  Grey : Type
  /-- The type LandmarkDetector::CLNF. -/
  CLNF : Type
  /-- The type LandmarkDetector::FaceModelParameters. -/
  Params : Type
  /-- The type FaceAnalysis::FaceAnalyser. -/
  Analyser : Type
  /-- The result type of PredictStaticAUs. -/
  ActionUnits : Type
  /-- The result type of CalculateLandmarks. -/
  Landmarks : Type
  /-- The type cv::Vec6d. -/
  Vec6d : Type
  check_frame_info : Mem → FrameInfo → Column → FrameInfo
  cvtColor : Mem → Mat → Grey
  deserialize_proto_vector : Mem → Ptr → Nat → List BoundingBox
  rectangle : Mat → Rect → Scalar → Mem → Mem
  DetectLandmarksInImage : Grey → Rect → CLNF → Params → Bool × CLNF × Params
  CalculateLandmarks : CLNF → Landmarks × CLNF
  EstimateGaze : CLNF → Point3f → ℚ → ℚ → ℚ → ℚ → Bool → Point3f × CLNF
  PredictStaticAUs : Analyser → Grey → CLNF → Bool → ActionUnits × Analyser × CLNF
  GetCorrectedPoseWorld : CLNF → ℚ → ℚ → ℚ → ℚ → Vec6d × CLNF
  DrawBox : Mat → Vec6d → Scalar → Int → ℚ → ℚ → ℚ → ℚ → Mem → Mem
  DrawGaze : Mat → CLNF → Point3f → Point3f → ℚ → ℚ → ℚ → ℚ → Mem → Mem
  Draw : Mat → CLNF → Mem → Mem

/-- The data members of OpenFaceEvaluator that execute reads or writes, with
frame_info_ of its base class VideoKernel. -/
structure OpenFaceEvaluator (L : Vision) where
  frame_info_ : FrameInfo
  det_parameters : L.Params
  clnf_model : L.CLNF
  fx : ℚ
  fy : ℚ
  cx : ℚ
  cy : ℚ
  face_analyser_ : L.Analyser

/-- The locals dw and dh of the box loop: w = x2 - x1, h = y2 - y1, nw = w,
nh = h, dw = nw - w, dh = nh - h. -/
def enlargement (bbox : BoundingBox) : ℚ × ℚ :=
  let w := bbox.x2 - bbox.x1
  let h := bbox.y2 - bbox.y1
  let nw := w
  let nh := h
  (nw - w, nh - h)

/-- The rectangle cv_bbox of the box loop (lines 49 to 56). -/
def cv_bbox (frame_info_ : FrameInfo) (bbox : BoundingBox) : Rect :=
  let dw := (enlargement bbox).1
  let dh := (enlargement bbox).2
  let x1 := max (bbox.x1 - dw / 2) 0
  let y1 := max (bbox.y1 - dh / 2) 0
  let x2 := min (bbox.x2 + dw / 2) (((frame_info_.width - 1 : Int) : ℚ))
  let y2 := min (bbox.y2 + dh / 2) (((frame_info_.height - 1 : Int) : ℚ))
  ⟨x1, y1, x2 - x1, y2 - y1⟩

/-- The body of the loop over all_bboxes (lines 49 to 82), on the evaluator and
the memory. -/
def boxStep (L : Vision) (img : Mat) (grey : L.Grey)
    (st : OpenFaceEvaluator L × Mem) (bbox : BoundingBox) : OpenFaceEvaluator L × Mem :=
  let self := st.1
  let box := cv_bbox self.frame_info_ bbox
  let mem := L.rectangle img box ⟨0, 255, 0⟩ st.2
  let det := L.DetectLandmarksInImage grey box self.clnf_model self.det_parameters
  let self := { self with clnf_model := det.2.1, det_parameters := det.2.2 }
  if det.1 then
    let lm := L.CalculateLandmarks self.clnf_model
    let g0 := L.EstimateGaze lm.2 ⟨0, 0, -1⟩ self.fx self.fy self.cx self.cy true
    let g1 := L.EstimateGaze g0.2 ⟨0, 0, -1⟩ self.fx self.fy self.cx self.cy false
    let au := L.PredictStaticAUs self.face_analyser_ grey g1.2 false
    let pose := L.GetCorrectedPoseWorld au.2.2 self.fx self.fy self.cx self.cy
    let mem := L.DrawBox img pose.1 ⟨255, 0, 0⟩ 3 self.fx self.fy self.cx self.cy mem
    let mem := L.DrawGaze img pose.2 g0.1 g1.1 self.fx self.fy self.cx self.cy mem
    let mem := L.Draw img pose.2 mem
    ({ self with clnf_model := pose.2, face_analyser_ := au.2.1 }, mem)
  else
    (self, mem)

/-- What the row loop carries: the evaluator, the memory and the output columns. -/
abbrev ExecState (L : Vision) := OpenFaceEvaluator L × Mem × BatchedColumns

/-- The body of the row loop for index b (lines 42 to 85). -/
def rowBody (L : Vision) (input_columns : BatchedColumns) (b : Nat)
    (st : ExecState L) : Except Fault (ExecState L) :=
  match vecAt input_columns 0 with
  | .error e => .error e
  | .ok col0 =>
  match vecAt col0.rows b with
  | .error e => .error e
  | .ok r0 =>
  let img : Mat := ⟨st.1.frame_info_.height, st.1.frame_info_.width, r0.buffer⟩
  let grey := L.cvtColor st.2.1 img
  match vecAt input_columns 2 with
  | .error e => .error e
  | .ok col2 =>
  match vecAt col2.rows b with
  | .error e => .error e
  | .ok r2 =>
  let all_bboxes := L.deserialize_proto_vector st.2.1 r2.buffer r2.size
  let sm := all_bboxes.foldl (boxStep L img grey) (st.1, st.2.1)
  match vecAt st.2.2 0 with
  | .error e => .error e
  | .ok out0 => .ok (sm.1, sm.2, st.2.2.set 0 (INSERT_ROW out0 img.data r0.size))

/-- The row loop: k iterations are left and the loop variable is b, so that
for (b = 0; b < input_count; ++b) is rowLoop with k = input_count and b = 0. -/
def rowLoop (L : Vision) (input_columns : BatchedColumns) :
    Nat → Nat → ExecState L → Except Fault (ExecState L)
  | 0, _, st => .ok st
  | k + 1, b, st =>
    match rowBody L input_columns b st with
    | .error e => .error e
    | .ok st1 => rowLoop L input_columns k (b + 1) st1

/-- The member OpenFaceEvaluator::execute (lines 28 to 87). -/
def execute (L : Vision) (self : OpenFaceEvaluator L) (mem : Mem)
    (input_columns output_columns : BatchedColumns) : Except Fault (ExecState L) :=
  match vecAt input_columns 1 with
  | .error e => .error e
  | .ok col1 =>
  let info := L.check_frame_info mem self.frame_info_ col1
  let width := info.width
  let height := info.height
  let cx : ℚ := width / 2
  let cy : ℚ := height / 2
  let fx : ℚ := 500 * (width / 640)
  let fy : ℚ := 500 * (height / 480)
  let fx : ℚ := (fx + fy) / 2
  let fy : ℚ := fx
  let self := { self with frame_info_ := info, cx := cx, cy := cy, fx := fx, fy := fy }
  match vecAt input_columns 0 with
  | .error e => .error e
  | .ok col0 =>
  let input_count := toI32 col0.rows.length
  rowLoop L input_columns input_count.toNat 0 (self, mem, output_columns)

/-! ### The box adjustment in f64, special values included

The locals of lines 49 to 56 are f64 values converted from the float fields of the
message. Here an f64 is a finite value, an infinity or NaN; arithmetic on finite
values is exact (differences of float values do not overflow an f64, and rounding
is not modelled), and the special values follow IEEE 754. -/

/-- An f64: a finite value, plus or minus infinity, or NaN. -/
inductive F64 where
  | fin (q : ℚ)
  | pinf
  | ninf
  | nan
deriving DecidableEq, Repr

namespace F64

/-- The f64 subtraction: inf - inf is NaN, NaN propagates. -/
def sub : F64 → F64 → F64
  | fin a, fin b => fin (a - b)
  | nan, _ => nan
  | _, nan => nan
  | pinf, pinf => nan
  | ninf, ninf => nan
  | pinf, _ => pinf
  | ninf, _ => ninf
  | fin _, pinf => ninf
  | fin _, ninf => pinf

/-- The f64 addition: inf + (-inf) is NaN, NaN propagates. -/
def add : F64 → F64 → F64
  | fin a, fin b => fin (a + b)
  | nan, _ => nan
  | _, nan => nan
  | pinf, ninf => nan
  | ninf, pinf => nan
  | pinf, _ => pinf
  | ninf, _ => ninf
  | fin _, pinf => pinf
  | fin _, ninf => ninf

/-- The division by the literal 2. -/
def half : F64 → F64
  | fin a => fin (a / 2)
  | pinf => pinf
  | ninf => ninf
  | nan => nan

/-- The comparison a < b: false as soon as one side is NaN. -/
def lt : F64 → F64 → Bool
  | fin a, fin b => decide (a < b)
  | nan, _ => false
  | _, nan => false
  | ninf, ninf => false
  | ninf, _ => true
  | _, ninf => false
  | pinf, _ => false
  | _, pinf => true

/-- The comparison a <= b: false as soon as one side is NaN. -/
def le : F64 → F64 → Bool
  | fin a, fin b => decide (a ≤ b)
  | nan, _ => false
  | _, nan => false
  | ninf, _ => true
  | _, pinf => true
  | pinf, _ => false
  | _, ninf => false

/-- The function std::max(a, b) = (a < b) ? b : a. -/
def max (a b : F64) : F64 := if lt a b then b else a

/-- The function std::min(a, b) = (b < a) ? b : a. -/
def min (a b : F64) : F64 := if lt b a then b else a

/-- The conversion (f64) of an i32. -/
def ofInt (n : Int) : F64 := fin (n : ℚ)

end F64

/-- The f64 locals x1, y1, x2, y2 read from a box (line 49). -/
structure BoxF64 where
  x1 : F64
  y1 : F64
  x2 : F64
  y2 : F64
deriving DecidableEq, Repr

/-- The type cv::Rect_<double> with the special values of its fields. -/
structure RectF64 where
  x : F64
  y : F64
  width : F64
  height : F64
deriving DecidableEq, Repr

/-- A box with finite coordinates, as f64 locals. -/
def BoundingBox.toF64 (b : BoundingBox) : BoxF64 :=
  ⟨.fin b.x1, .fin b.y1, .fin b.x2, .fin b.y2⟩

/-- A rectangle with finite fields, as a rectangle of f64 values. -/
def Rect.toF64 (r : Rect) : RectF64 :=
  ⟨.fin r.x, .fin r.y, .fin r.width, .fin r.height⟩

/-- The locals dw and dh of the box loop (lines 50 and 51) in f64. -/
def enlargementF64 (bbox : BoxF64) : F64 × F64 :=
  let w := F64.sub bbox.x2 bbox.x1
  let h := F64.sub bbox.y2 bbox.y1
  let nw := w
  let nh := h
  (F64.sub nw w, F64.sub nh h)

/-- The rectangle cv_bbox of the box loop (lines 49 to 56) in f64. -/
def cv_bboxF64 (frame_info_ : FrameInfo) (bbox : BoxF64) : RectF64 :=
  let dw := (enlargementF64 bbox).1
  let dh := (enlargementF64 bbox).2
  let x1 := F64.max (F64.sub bbox.x1 (F64.half dw)) (F64.fin 0)
  let y1 := F64.max (F64.sub bbox.y1 (F64.half dh)) (F64.fin 0)
  let x2 := F64.min (F64.add bbox.x2 (F64.half dw)) (F64.ofInt (frame_info_.width - 1))
  let y2 := F64.min (F64.add bbox.y2 (F64.half dh)) (F64.ofInt (frame_info_.height - 1))
  ⟨x1, y1, F64.sub x2 x1, F64.sub y2 y1⟩

/-! ### Which calls may write a byte

The image of row b is the header (frame height, frame width, buffer of row b of
input column 0); info is the frame description execute works with. -/

/-- The rows of every output column after execute, when it finished. -/
def outputRows {L : Vision} : Except Fault (ExecState L) → Option (List (List Row))
  | .ok st => some (st.2.2.map Column.rows)
  | .error _ => none

/-- The size bytes readable at buffer. -/
def readBytes (mem : Mem) (buffer : Ptr) (size : Nat) : List UInt8 :=
  (List.range size).map (fun i => mem (buffer + i))

/-- A box decoder for the stand-in: four bytes per box, x1 y1 x2 y2. -/
def decodeBoxes : List UInt8 → List BoundingBox
  | a :: b :: c :: d :: rest =>
    ⟨(a.toNat : ℚ), (b.toNat : ℚ), (c.toNat : ℚ), (d.toNat : ℚ)⟩ :: decodeBoxes rest
  | _ => []

/-- The conversion of a colour channel to a byte, saturating. -/
def channelByte (q : ℚ) : UInt8 := UInt8.ofNat (min 255 (Int.toNat ⌊q⌋))

/-- Write the three bytes of the pixel in row y, column x of a CV_8UC3 image. -/
def writePixel (img : Mat) (y x : Int) (c : Scalar) (mem : Mem) : Mem :=
  fun a =>
    if a = img.data + 3 * Int.toNat (y * img.cols + x) then channelByte c.v0
    else if a = img.data + 3 * Int.toNat (y * img.cols + x) + 1 then channelByte c.v1
    else if a = img.data + 3 * Int.toNat (y * img.cols + x) + 2 then channelByte c.v2
    else mem a

/-- The rectangle of the stand-in: the top-left corner pixel. -/
def paintCorner (img : Mat) (r : Rect) (c : Scalar) (mem : Mem) : Mem :=
  if 0 < r.width ∧ 0 < r.height ∧ 0 ≤ r.x ∧ r.x < img.cols ∧ 0 ≤ r.y ∧ r.y < img.rows then
    writePixel img ⌊r.y⌋ ⌊r.x⌋ c mem
  else mem

/-- The stand-in: check_frame_info keeps the frame description, the detector
finds nothing, rectangle is paintCorner, the other drawing functions draw
nothing. -/
def standIn : Vision where
  Grey := Unit
  CLNF := Unit
  Params := Unit
  Analyser := Unit
  ActionUnits := Unit
  Landmarks := Unit
  Vec6d := Unit
  check_frame_info := fun _ info _ => info
  cvtColor := fun _ _ => ()
  deserialize_proto_vector := fun mem buffer size => decodeBoxes (readBytes mem buffer size)
  rectangle := paintCorner
  DetectLandmarksInImage := fun _ _ m p => (false, m, p)
  CalculateLandmarks := fun m => ((), m)
  EstimateGaze := fun m g _ _ _ _ _ => (g, m)
  PredictStaticAUs := fun a _ m _ => ((), a, m)
  GetCorrectedPoseWorld := fun m _ _ _ _ => ((), m)
  DrawBox := fun _ _ _ _ _ _ _ _ mem => mem
  DrawGaze := fun _ _ _ _ _ _ _ _ mem => mem
  Draw := fun _ _ mem => mem

/-- An OpenFaceEvaluator over the stand-in, set up for 2 x 2 frames. -/
def standInEvaluator : OpenFaceEvaluator standIn :=
  { frame_info_ := ⟨2, 2⟩, det_parameters := (), clnf_model := (),
    fx := 0, fy := 0, cx := 0, cy := 0, face_analyser_ := () }

/-- A memory that is zero everywhere except for the four bytes 0 0 1 1 at address
200, which decode to the box (0, 0, 1, 1). -/
def boxMemory : Mem := fun a => if a = 202 ∨ a = 203 then 1 else 0

/-- A column of n rows, all with the buffer 100 and the size 12 (a 2 x 2 frame). -/
def frameColumn (n : Nat) : Column := ⟨List.replicate n ⟨100, 12⟩⟩

/-- A column of n rows, all empty (size 0) at address 300. -/
def emptyColumn (n : Nat) : Column := ⟨List.replicate n ⟨300, 0⟩⟩

/-- Whether a call is a configure call. -/
def Call.isConfigure {Profiler : Type} : Call Profiler → Bool
  | .configure _ => true
  | _ => false

/-! ## The base evaluator -/

theorem runCalls_append {Profiler : Type} (e : Evaluator Profiler)
    (xs ys : List (Call Profiler)) :
    runCalls e (xs ++ ys) = runCalls (runCalls e xs) ys := by
  simp [runCalls, List.foldl_append]

theorem runCalls_metadata_of_no_configure {Profiler : Type} (cs : List (Call Profiler)) :
    ∀ e : Evaluator Profiler, (∀ c ∈ cs, c.isConfigure = false) →
      (runCalls e cs).metadata_ = e.metadata_ := by
  induction cs with
  | nil => intro e _; rfl
  | cons c cs ih =>
    intro e h
    have hc : c.isConfigure = false := h c (List.mem_cons_self _ _)
    have hcs : ∀ d ∈ cs, d.isConfigure = false := fun d hd => h d (List.mem_cons_of_mem _ hd)
    have hstep : (Call.apply e c).metadata_ = e.metadata_ := by
      cases c with
      | configure m => simp [Call.isConfigure] at hc
      | reset => rfl
      | set_profiler p => rfl
    show (runCalls (Call.apply e c) cs).metadata_ = e.metadata_
    rw [ih (Call.apply e c) hcs, hstep]

/-- C4. For every sequence of configure, reset and set_profiler calls applied to a
freshly constructed base evaluator: if the sequence has a configure call, the
stored format metadata_ (width and height) is the argument of the most recent
one, whatever reset and set_profiler calls follow it; if it has none, the stored
format is width 0, height 0. -/
theorem C4_no_implicit_reconfiguration {Profiler : Type} :
    (∀ (before after : List (Call Profiler)) (m : InputFormat),
        (∀ c ∈ after, c.isConfigure = false) →
        (runCalls Evaluator.fresh (before ++ Call.configure m :: after)).metadata_ = m ∧
        (runCalls Evaluator.fresh (before ++ Call.configure m :: after)).metadata_.width
          = m.width ∧
        (runCalls Evaluator.fresh (before ++ Call.configure m :: after)).metadata_.height
          = m.height) ∧
    (∀ cs : List (Call Profiler), (∀ c ∈ cs, c.isConfigure = false) →
        (runCalls Evaluator.fresh cs).metadata_.width = 0 ∧
        (runCalls Evaluator.fresh cs).metadata_.height = 0) := by
  constructor
  · intro before after m h
    have key : (runCalls Evaluator.fresh (before ++ Call.configure m :: after)).metadata_ = m := by
      rw [runCalls_append]
      show (runCalls (Call.apply _ (Call.configure m)) after).metadata_ = m
      rw [runCalls_metadata_of_no_configure after _ h]
      rfl
    exact ⟨key, by rw [key], by rw [key]⟩
  · intro cs h
    rw [runCalls_metadata_of_no_configure cs _ h]
    exact ⟨rfl, rfl⟩

/-- C4 at the sequence configure(640, 480), reset, configure(320, 240),
set_profiler(7), reset, and at the sequence reset, set_profiler(7). -/
theorem C4_no_implicit_reconfiguration_witness :
    (runCalls (Evaluator.fresh : Evaluator Nat)
        [Call.configure ⟨640, 480⟩, Call.reset, Call.configure ⟨320, 240⟩,
          Call.set_profiler (some 7), Call.reset]).metadata_ = ⟨320, 240⟩ ∧
    (runCalls (Evaluator.fresh : Evaluator Nat)
        [Call.reset, Call.set_profiler (some 7)]).metadata_.width = 0 :=
  ⟨(C4_no_implicit_reconfiguration.1 [Call.configure ⟨640, 480⟩, Call.reset]
      [Call.set_profiler (some 7), Call.reset] ⟨320, 240⟩ (by decide)).1,
   (C4_no_implicit_reconfiguration.2 [Call.reset, Call.set_profiler (some 7)]
      (by decide)).1⟩

/-- C5. INSERT_ROW appends without permuting: after INSERT_ROW(c, b, s) on a
column of n rows the column has n + 1 rows, its first n rows are the rows of c
in the same order, and ROW_BUFFER(c, n) = b, ROW_SIZE(c, n) = s, for every size
s, zero included. -/
theorem C5_insert_row_appends (c : Column) (b : Ptr) (s : Nat) :
    (INSERT_ROW c b s).rows.length = c.rows.length + 1 ∧
    (INSERT_ROW c b s).rows.take c.rows.length = c.rows ∧
    (∀ i, i < c.rows.length →
      ROW_BUFFER (INSERT_ROW c b s) i = ROW_BUFFER c i ∧
      ROW_SIZE (INSERT_ROW c b s) i = ROW_SIZE c i) ∧
    ROW_BUFFER (INSERT_ROW c b s) c.rows.length = .ok b ∧
    ROW_SIZE (INSERT_ROW c b s) c.rows.length = .ok s := by
  refine ⟨by simp [INSERT_ROW], by simp [INSERT_ROW], ?_, ?_, ?_⟩
  · intro i hi
    simp [ROW_BUFFER, ROW_SIZE, INSERT_ROW, List.getElem?_append_left hi]
  · simp [ROW_BUFFER, INSERT_ROW]
  · simp [ROW_SIZE, INSERT_ROW]

/-- C5 at a column of two rows, inserting the buffer 900 with size 0: row 1 is
unchanged. -/
theorem C5_insert_row_appends_witness :
    ROW_BUFFER (INSERT_ROW ⟨[⟨100, 12⟩, ⟨200, 12⟩]⟩ 900 0) 1
      = ROW_BUFFER ⟨[⟨100, 12⟩, ⟨200, 12⟩]⟩ 1 ∧
    ROW_SIZE (INSERT_ROW ⟨[⟨100, 12⟩, ⟨200, 12⟩]⟩ 900 0) 1
      = ROW_SIZE ⟨[⟨100, 12⟩, ⟨200, 12⟩]⟩ 1 :=
  (C5_insert_row_appends ⟨[⟨100, 12⟩, ⟨200, 12⟩]⟩ 900 0).2.2.1 1 (by decide)

/-- C6. The default reset is a no-op: it leaves the stored format metadata_ and
the profiler reference profiler_ as they were (null on a fresh evaluator), and
what configure stored is still there after reset. -/
theorem C6_reset_is_noop {Profiler : Type} (e : Evaluator Profiler) (m : InputFormat)
    (p : Option Profiler) :
    e.reset.metadata_ = e.metadata_ ∧ e.reset.profiler_ = e.profiler_ ∧
    (Evaluator.fresh : Evaluator Profiler).reset.profiler_ = none ∧
    (e.configure m).reset.metadata_ = m ∧
    (e.set_profiler p).reset.profiler_ = p ∧
    e.reset.configure m = (e.configure m).reset :=
  ⟨rfl, rfl, rfl, rfl, rfl, rfl⟩

/-! ## The box adjustment of the OpenFace kernel -/

theorem enlargement_eq (b : BoundingBox) : enlargement b = (0, 0) := by
  simp [enlargement]

theorem cv_bbox_eq (f : FrameInfo) (b : BoundingBox) :
    cv_bbox f b = ⟨max b.x1 0, max b.y1 0,
      min b.x2 ((f.width : ℚ) - 1) - max b.x1 0,
      min b.y2 ((f.height : ℚ) - 1) - max b.y1 0⟩ := by
  simp [cv_bbox, enlargement_eq]

/-- C9, refuted as stated: in a 10 x 10 frame the box (100, 0, 200, 5), which has
x1 <= x2 and y1 <= y2 and lies to the right of the frame, gives the rectangle
(100, 0, -91, 5), whose width is negative. -/
theorem C9_counterexample_box_right_of_frame :
    (1 ≤ FrameInfo.width ⟨10, 10⟩ ∧ 1 ≤ FrameInfo.height ⟨10, 10⟩ ∧
      BoundingBox.x1 ⟨100, 0, 200, 5⟩ ≤ BoundingBox.x2 ⟨100, 0, 200, 5⟩ ∧
      BoundingBox.y1 ⟨100, 0, 200, 5⟩ ≤ BoundingBox.y2 ⟨100, 0, 200, 5⟩) ∧
    cv_bbox ⟨10, 10⟩ ⟨100, 0, 200, 5⟩ = ⟨100, 0, -91, 5⟩ ∧
    ¬ (0 ≤ (cv_bbox ⟨10, 10⟩ ⟨100, 0, 200, 5⟩).width) := by
  refine ⟨⟨by decide, by decide, by norm_num, by norm_num⟩, ?_, ?_⟩
  · rw [cv_bbox_eq]; norm_num [FrameInfo.width, FrameInfo.height]
  · rw [cv_bbox_eq]; norm_num [FrameInfo.width, FrameInfo.height]

/-- C9, amended: for a frame with width >= 1 and height >= 1 and a box with
x1 <= x2 and y1 <= y2, the rectangle (x, y, w, h) passed to the landmark detector
has 0 <= x, 0 <= y, x + w <= width - 1 and y + h <= height - 1; its width w is
non-negative exactly when x1 <= width - 1 and 0 <= x2, and its height h exactly
when y1 <= height - 1 and 0 <= y2 (the box meets the frame). -/
theorem C9_clamped_rectangle (f : FrameInfo) (b : BoundingBox)
    (hw : 1 ≤ f.width) (hh : 1 ≤ f.height) (hx : b.x1 ≤ b.x2) (hy : b.y1 ≤ b.y2) :
    0 ≤ (cv_bbox f b).x ∧ 0 ≤ (cv_bbox f b).y ∧
    (cv_bbox f b).x + (cv_bbox f b).width ≤ (f.width : ℚ) - 1 ∧
    (cv_bbox f b).y + (cv_bbox f b).height ≤ (f.height : ℚ) - 1 ∧
    (0 ≤ (cv_bbox f b).width ↔ b.x1 ≤ (f.width : ℚ) - 1 ∧ 0 ≤ b.x2) ∧
    (0 ≤ (cv_bbox f b).height ↔ b.y1 ≤ (f.height : ℚ) - 1 ∧ 0 ≤ b.y2) := by
  have hw1 : (1 : ℚ) ≤ (f.width : ℚ) := by exact_mod_cast hw
  have hh1 : (1 : ℚ) ≤ (f.height : ℚ) := by exact_mod_cast hh
  rw [cv_bbox_eq]
  refine ⟨le_max_right _ _, le_max_right _ _, ?_, ?_, ?_, ?_⟩
  · simp
  · simp
  · simp only [sub_nonneg, le_min_iff, max_le_iff]
    constructor
    · rintro ⟨⟨_, h2⟩, h3, _⟩; exact ⟨h3, h2⟩
    · rintro ⟨h1, h2⟩; exact ⟨⟨hx, h2⟩, h1, by linarith⟩
  · simp only [sub_nonneg, le_min_iff, max_le_iff]
    constructor
    · rintro ⟨⟨_, h2⟩, h3, _⟩; exact ⟨h3, h2⟩
    · rintro ⟨h1, h2⟩; exact ⟨⟨hy, h2⟩, h1, by linarith⟩

/-- C9 amended, at a 640 x 480 frame and the box (-20, 30, 700, 200), which sticks
out of the frame on both sides. -/
theorem C9_clamped_rectangle_witness :
    0 ≤ (cv_bbox ⟨640, 480⟩ ⟨-20, 30, 700, 200⟩).x ∧
    0 ≤ (cv_bbox ⟨640, 480⟩ ⟨-20, 30, 700, 200⟩).y ∧
    (cv_bbox ⟨640, 480⟩ ⟨-20, 30, 700, 200⟩).x + (cv_bbox ⟨640, 480⟩ ⟨-20, 30, 700, 200⟩).width
      ≤ ((FrameInfo.width ⟨640, 480⟩ : Int) : ℚ) - 1 ∧
    (cv_bbox ⟨640, 480⟩ ⟨-20, 30, 700, 200⟩).y + (cv_bbox ⟨640, 480⟩ ⟨-20, 30, 700, 200⟩).height
      ≤ ((FrameInfo.height ⟨640, 480⟩ : Int) : ℚ) - 1 ∧
    (0 ≤ (cv_bbox ⟨640, 480⟩ ⟨-20, 30, 700, 200⟩).width ↔
      BoundingBox.x1 ⟨-20, 30, 700, 200⟩ ≤ ((FrameInfo.width ⟨640, 480⟩ : Int) : ℚ) - 1 ∧
      0 ≤ BoundingBox.x2 ⟨-20, 30, 700, 200⟩) ∧
    (0 ≤ (cv_bbox ⟨640, 480⟩ ⟨-20, 30, 700, 200⟩).height ↔
      BoundingBox.y1 ⟨-20, 30, 700, 200⟩ ≤ ((FrameInfo.height ⟨640, 480⟩ : Int) : ℚ) - 1 ∧
      0 ≤ BoundingBox.y2 ⟨-20, 30, 700, 200⟩) :=
  C9_clamped_rectangle ⟨640, 480⟩ ⟨-20, 30, 700, 200⟩ (by decide) (by decide)
    (by norm_num) (by norm_num)

/-- On a box inside the frame the exact adjustment is the identity. -/
theorem cv_bbox_of_in_frame (f : FrameInfo) (b : BoundingBox)
    (h1 : 0 ≤ b.x1) (h3 : b.x2 ≤ (f.width : ℚ) - 1)
    (h4 : 0 ≤ b.y1) (h6 : b.y2 ≤ (f.height : ℚ) - 1) :
    cv_bbox f b = ⟨b.x1, b.y1, b.x2 - b.x1, b.y2 - b.y1⟩ := by
  rw [cv_bbox_eq, max_eq_left h1, max_eq_left h4, min_eq_left h3, min_eq_left h6]

theorem F64_max_fin (a b : ℚ) : F64.max (.fin a) (.fin b) = .fin (max a b) := by
  unfold F64.max F64.lt
  by_cases h : a < b
  · simp [h, max_eq_right (le_of_lt h)]
  · simp [h, max_eq_left (not_lt.mp h)]

theorem F64_min_fin (a b : ℚ) : F64.min (.fin a) (.fin b) = .fin (min a b) := by
  unfold F64.min F64.lt
  by_cases h : b < a
  · simp [h, min_eq_right (le_of_lt h)]
  · simp [h, min_eq_left (not_lt.mp h)]

theorem enlargementF64_finite (b : BoundingBox) :
    enlargementF64 b.toF64 = (.fin 0, .fin 0) := by
  simp [enlargementF64, BoundingBox.toF64, F64.sub]

/-- On a box with finite coordinates the f64 adjustment is the exact one, which is
what boxStep passes to cv::rectangle and to the landmark detector. -/
theorem cv_bboxF64_finite (f : FrameInfo) (b : BoundingBox) :
    cv_bboxF64 f b.toF64 = (cv_bbox f b).toF64 := by
  rw [cv_bbox_eq]
  simp only [cv_bboxF64, enlargementF64_finite]
  simp [BoundingBox.toF64, Rect.toF64, F64.sub, F64.add, F64.half, F64.ofInt,
    F64_max_fin, F64_min_fin]

/-- C10, refuted as stated: the box (0, 0, +inf, 1) has w = +inf and
dw = inf - inf = NaN, not 0, and in a 640 x 480 frame its rectangle is
(NaN, 0, NaN, 1). -/
theorem C10_counterexample_infinite_box :
    enlargementF64 ⟨.fin 0, .fin 0, .pinf, .fin 1⟩ = (.nan, .fin 0) ∧
    enlargementF64 ⟨.fin 0, .fin 0, .pinf, .fin 1⟩ ≠ (.fin 0, .fin 0) ∧
    cv_bboxF64 ⟨640, 480⟩ ⟨.fin 0, .fin 0, .pinf, .fin 1⟩ = ⟨.nan, .fin 0, .nan, .fin 1⟩ := by
  have h : enlargementF64 ⟨.fin 0, .fin 0, .pinf, .fin 1⟩ = (.nan, .fin 0) := by
    simp [enlargementF64, F64.sub]
  refine ⟨h, ?_, ?_⟩
  · rw [h]; simp
  · simp only [cv_bboxF64, h]
    simp [F64.sub, F64.add, F64.half, F64.max, F64.min, F64.lt, F64.ofInt, FrameInfo.width,
      FrameInfo.height]

/-- A box that passes the in-frame comparisons in f64 has finite coordinates. -/
theorem in_frame_finite (lo a b hi : F64) (q : ℚ) (hlo : lo = .fin 0) (hhi : hi = .fin q)
    (h1 : F64.le lo a = true) (h2 : F64.le a b = true) (h3 : F64.le b hi = true) :
    ∃ x y : ℚ, a = .fin x ∧ b = .fin y ∧ 0 ≤ x ∧ x ≤ y ∧ y ≤ q := by
  subst hlo hhi
  cases a <;> cases b <;> simp [F64.le] at h1 h2 h3
  exact ⟨_, _, rfl, rfl, h1, h2, h3⟩

/-- C10, amended: for every box with finite coordinates the enlargement amounts dw
and dh are 0, so no such box is grown, and the f64 rectangle is the exactly adjusted
one that is passed on; for every box with 0 <= x1 <= x2 <= width - 1 and
0 <= y1 <= y2 <= height - 1, the comparisons taken in f64, dw and dh are 0 and the
rectangle passed to the landmark detector is exactly (x1, y1, x2 - x1, y2 - y1). -/
theorem C10_identity_on_finite_in_frame_boxes (f : FrameInfo) (q : BoundingBox) (b : BoxF64) :
    (enlargementF64 q.toF64 = (.fin 0, .fin 0) ∧ enlargement q = (0, 0) ∧
      cv_bboxF64 f q.toF64 = (cv_bbox f q).toF64) ∧
    (F64.le (.fin 0) b.x1 = true → F64.le b.x1 b.x2 = true →
     F64.le b.x2 (F64.ofInt (f.width - 1)) = true →
     F64.le (.fin 0) b.y1 = true → F64.le b.y1 b.y2 = true →
     F64.le b.y2 (F64.ofInt (f.height - 1)) = true →
      enlargementF64 b = (.fin 0, .fin 0) ∧
      cv_bboxF64 f b = ⟨b.x1, b.y1, F64.sub b.x2 b.x1, F64.sub b.y2 b.y1⟩ ∧
      ∃ r : BoundingBox, b = r.toF64 ∧
        cv_bbox f r = ⟨r.x1, r.y1, r.x2 - r.x1, r.y2 - r.y1⟩) := by
  refine ⟨⟨enlargementF64_finite q, enlargement_eq q, cv_bboxF64_finite f q⟩, ?_⟩
  intro h1 h2 h3 h4 h5 h6
  obtain ⟨xa, xb, ea, eb, ha, _, hb⟩ :=
    in_frame_finite _ b.x1 b.x2 _ _ rfl rfl h1 h2 h3
  obtain ⟨ya, yb, ec, ed, hc, _, hd⟩ :=
    in_frame_finite _ b.y1 b.y2 _ _ rfl rfl h4 h5 h6
  have hbox : b = BoundingBox.toF64 ⟨xa, ya, xb, yb⟩ := by
    cases b
    simp only [BoundingBox.toF64] at *
    simp [ea, eb, ec, ed]
  have hq := cv_bbox_of_in_frame f ⟨xa, ya, xb, yb⟩ ha (by push_cast at hb; exact hb)
    hc (by push_cast at hd; exact hd)
  refine ⟨by rw [hbox]; exact enlargementF64_finite _, ?_, ⟨_, hbox, hq⟩⟩
  rw [hbox, cv_bboxF64_finite, hq]
  rfl

/-- C10 amended, at a 640 x 480 frame and the box (10, 20, 110, 220). -/
theorem C10_identity_on_finite_in_frame_boxes_witness :
    enlargementF64 ⟨.fin 10, .fin 20, .fin 110, .fin 220⟩ = (.fin 0, .fin 0) ∧
    cv_bboxF64 ⟨640, 480⟩ ⟨.fin 10, .fin 20, .fin 110, .fin 220⟩
      = ⟨BoxF64.x1 ⟨.fin 10, .fin 20, .fin 110, .fin 220⟩,
         BoxF64.y1 ⟨.fin 10, .fin 20, .fin 110, .fin 220⟩,
         F64.sub (BoxF64.x2 ⟨.fin 10, .fin 20, .fin 110, .fin 220⟩)
           (BoxF64.x1 ⟨.fin 10, .fin 20, .fin 110, .fin 220⟩),
         F64.sub (BoxF64.y2 ⟨.fin 10, .fin 20, .fin 110, .fin 220⟩)
           (BoxF64.y1 ⟨.fin 10, .fin 20, .fin 110, .fin 220⟩)⟩ ∧
    ∃ r : BoundingBox, (⟨.fin 10, .fin 20, .fin 110, .fin 220⟩ : BoxF64) = r.toF64 ∧
      cv_bbox ⟨640, 480⟩ r = ⟨r.x1, r.y1, r.x2 - r.x1, r.y2 - r.y1⟩ :=
  (C10_identity_on_finite_in_frame_boxes ⟨640, 480⟩ ⟨10, 20, 110, 220⟩
      ⟨.fin 10, .fin 20, .fin 110, .fin 220⟩).2
    (by simp [F64.le]) (by norm_num [F64.le]) (by norm_num [F64.le, F64.ofInt, FrameInfo.width])
    (by simp [F64.le]) (by norm_num [F64.le]) (by norm_num [F64.le, F64.ofInt, FrameInfo.height])

/-! ## The loops of execute -/

theorem toI32_toNat_le (n : Nat) : (toI32 (n : Int)).toNat ≤ n := by
  unfold toI32
  omega

theorem toI32_toNat_of_lt (n : Nat) (h : n < 2 ^ 31) : (toI32 (n : Int)).toNat = n := by
  unfold toI32
  omega

theorem boxStep_frame (L : Vision) (img : Mat) (grey : L.Grey)
    (st : OpenFaceEvaluator L × Mem) (bbox : BoundingBox) :
    (boxStep L img grey st bbox).1.frame_info_ = st.1.frame_info_ := by
  unfold boxStep
  dsimp only
  split <;> rfl

theorem boxes_frame (L : Vision) (img : Mat) (grey : L.Grey) (boxes : List BoundingBox) :
    ∀ st : OpenFaceEvaluator L × Mem,
      (boxes.foldl (boxStep L img grey) st).1.frame_info_ = st.1.frame_info_ := by
  induction boxes with
  | nil => intro st; rfl
  | cons b bs ih =>
    intro st
    rw [List.foldl_cons, ih, boxStep_frame]

theorem rowBody_eq (L : Vision) (ins : BatchedColumns) (col0 col2 : Column)
    (h0 : ins[0]? = some col0) (h2 : ins[2]? = some col2)
    (b : Nat) (hb0 : b < col0.rows.length) (hb2 : b < col2.rows.length)
    (st : ExecState L) (out0 : Column) (rest : List Column) (ho : st.2.2 = out0 :: rest) :
    rowBody L ins b st = .ok
      (((L.deserialize_proto_vector st.2.1 col2.rows[b].buffer col2.rows[b].size).foldl
          (boxStep L ⟨st.1.frame_info_.height, st.1.frame_info_.width, col0.rows[b].buffer⟩
            (L.cvtColor st.2.1
              ⟨st.1.frame_info_.height, st.1.frame_info_.width, col0.rows[b].buffer⟩))
          (st.1, st.2.1)).1,
       ((L.deserialize_proto_vector st.2.1 col2.rows[b].buffer col2.rows[b].size).foldl
          (boxStep L ⟨st.1.frame_info_.height, st.1.frame_info_.width, col0.rows[b].buffer⟩
            (L.cvtColor st.2.1
              ⟨st.1.frame_info_.height, st.1.frame_info_.width, col0.rows[b].buffer⟩))
          (st.1, st.2.1)).2,
       ⟨out0.rows ++ [col0.rows[b]]⟩ :: rest) := by
  simp only [rowBody, vecAt, h0, h2, List.getElem?_eq_getElem hb0,
    List.getElem?_eq_getElem hb2, ho, List.getElem?_cons_zero, INSERT_ROW, List.set_cons_zero]

/-- One iteration of the row loop succeeds when the indices are in range, appends
input row b of column 0 (its buffer and its size) to output column 0 and leaves the
other output columns alone; when row b carries no box, it writes no memory. -/
theorem rowBody_ok (L : Vision) (ins : BatchedColumns) (col0 col2 : Column)
    (h0 : ins[0]? = some col0) (h2 : ins[2]? = some col2)
    (b : Nat) (hb0 : b < col0.rows.length) (hb2 : b < col2.rows.length)
    (st : ExecState L) (out0 : Column) (rest : List Column) (ho : st.2.2 = out0 :: rest) :
    ∃ st1, rowBody L ins b st = .ok st1 ∧
      st1.2.2 = ⟨out0.rows ++ [col0.rows[b]]⟩ :: rest ∧
      st1.1.frame_info_ = st.1.frame_info_ ∧
      (L.deserialize_proto_vector st.2.1 col2.rows[b].buffer col2.rows[b].size = [] →
        st1.2.1 = st.2.1) := by
  refine ⟨_, rowBody_eq L ins col0 col2 h0 h2 b hb0 hb2 st out0 rest ho, rfl,
    boxes_frame L _ _ _ _, ?_⟩
  intro h
  rw [h]
  rfl

theorem rowLoop_ok (L : Vision) (ins : BatchedColumns) (col0 col2 : Column)
    (h0 : ins[0]? = some col0) (h2 : ins[2]? = some col2) (rest : List Column) :
    ∀ (k b : Nat) (st : ExecState L) (out0 : Column),
      st.2.2 = out0 :: rest → b + k ≤ col0.rows.length → b + k ≤ col2.rows.length →
      ∃ st1, rowLoop L ins k b st = .ok st1 ∧
        st1.2.2 = ⟨out0.rows ++ (col0.rows.drop b).take k⟩ :: rest ∧
        st1.1.frame_info_ = st.1.frame_info_ ∧
        ((∀ r ∈ col2.rows, L.deserialize_proto_vector st.2.1 r.buffer r.size = []) →
          st1.2.1 = st.2.1) := by
  intro k
  induction k with
  | zero =>
    intro b st out0 ho _ _
    exact ⟨st, rfl, by simp [ho], rfl, fun _ => rfl⟩
  | succ k ih =>
    intro b st out0 ho hk0 hk2
    have hb0 : b < col0.rows.length := by omega
    have hb2 : b < col2.rows.length := by omega
    obtain ⟨st1, hbody, hout1, hf1, hm1⟩ :=
      rowBody_ok L ins col0 col2 h0 h2 b hb0 hb2 st out0 rest ho
    obtain ⟨st2, hloop, hout2, hf2, hm2⟩ := ih (b + 1) st1 _ hout1 (by omega) (by omega)
    refine ⟨st2, ?_, ?_, ?_, ?_⟩
    · simp only [rowLoop, hbody, hloop]
    · rw [hout2, List.drop_eq_getElem_cons hb0, List.take_succ_cons]
      simp
    · rw [hf2, hf1]
    · intro hall
      have e1 : st1.2.1 = st.2.1 := hm1 (hall _ (List.getElem_mem _))
      have e2 : st2.2.1 = st1.2.1 := hm2 (by rw [e1]; exact hall)
      rw [e2, e1]

/-- The whole of execute on a batch with columns 0, 1 and 2, column 2 at least as
long as column 0, and an output column 0. -/
theorem execute_ok (L : Vision) (self : OpenFaceEvaluator L) (mem : Mem)
    (ins outs : BatchedColumns) (col0 col1 col2 : Column)
    (h0 : ins[0]? = some col0) (h1 : ins[1]? = some col1) (h2 : ins[2]? = some col2)
    (hlen : col0.rows.length ≤ col2.rows.length)
    (out0 : Column) (rest : List Column) (ho : outs = out0 :: rest) :
    ∃ st1, execute L self mem ins outs = .ok st1 ∧
      st1.2.2 = ⟨out0.rows ++ col0.rows.take (toI32 col0.rows.length).toNat⟩ :: rest ∧
      st1.1.frame_info_ = L.check_frame_info mem self.frame_info_ col1 ∧
      ((∀ r ∈ col2.rows, L.deserialize_proto_vector mem r.buffer r.size = []) →
        st1.2.1 = mem) := by
  have hk := toI32_toNat_le col0.rows.length
  obtain ⟨st1, hloop, hout, hf, hm⟩ :=
    rowLoop_ok L ins col0 col2 h0 h2 rest (toI32 col0.rows.length).toNat 0
      ({ self with
          frame_info_ := L.check_frame_info mem self.frame_info_ col1
          cx := ((L.check_frame_info mem self.frame_info_ col1).width : ℚ) / 2
          cy := ((L.check_frame_info mem self.frame_info_ col1).height : ℚ) / 2
          fx := (500 * (((L.check_frame_info mem self.frame_info_ col1).width : ℚ) / 640)
                  + 500 * (((L.check_frame_info mem self.frame_info_ col1).height : ℚ) / 480)) / 2
          fy := (500 * (((L.check_frame_info mem self.frame_info_ col1).width : ℚ) / 640)
                  + 500 * (((L.check_frame_info mem self.frame_info_ col1).height : ℚ) / 480)) / 2 },
        mem, outs) out0 ho (by omega) (by omega)
  refine ⟨st1, ?_, ?_, hf, hm⟩
  · simp only [execute, vecAt, h0, h1]
    exact hloop
  · rw [hout]; simp

theorem outputRows_execute (L : Vision) (self : OpenFaceEvaluator L) (mem : Mem)
    (ins : BatchedColumns) (col0 col1 col2 : Column)
    (h0 : ins[0]? = some col0) (h1 : ins[1]? = some col1) (h2 : ins[2]? = some col2)
    (hlen : col0.rows.length ≤ col2.rows.length) (out0 : Column) (rest : List Column) :
    outputRows (execute L self mem ins (out0 :: rest))
      = some ((out0.rows ++ col0.rows.take (toI32 col0.rows.length).toNat)
          :: rest.map Column.rows) := by
  obtain ⟨st1, hex, hout, _⟩ :=
    execute_ok L self mem ins (out0 :: rest) col0 col1 col2 h0 h1 h2 hlen out0 rest rfl
  rw [hex]
  simp only [outputRows, hout, List.map_cons]

theorem length_pos_getElem? {α : Type} (xs : List α) (i : Nat) (h : i < xs.length) :
    ∃ x, xs[i]? = some x ∧ x ∈ xs :=
  ⟨xs[i], List.getElem?_eq_getElem h, List.getElem_mem _⟩

/-! ## OpenFaceEvaluator::execute -/

/-- The checked accesses do fault on a malformed batch: with two input columns
only, the access input_columns[2] of the first iteration is out of range. -/
theorem execute_faults_without_column_2 :
    outputRows (execute standIn standInEvaluator boxMemory
      [frameColumn 1, emptyColumn 1] [⟨[]⟩]) = none := by
  have hk : (toI32 ((1 : Nat) : Int)).toNat = 1 := by unfold toI32; norm_num
  simp only [execute, vecAt, frameColumn, emptyColumn, List.replicate, List.length_cons,
    List.length_nil, List.getElem?_cons_zero, List.getElem?_cons_succ, Nat.zero_add, hk,
    rowLoop, rowBody, List.getElem?_nil, outputRows]

/-- The checked accesses do fault on a malformed batch: when column 2 has fewer rows
than column 0, the access input_columns[2].rows[1] is out of range. -/
theorem execute_faults_on_short_column_2 :
    outputRows (execute standIn standInEvaluator boxMemory
      [frameColumn 2, emptyColumn 2, emptyColumn 1] [⟨[]⟩]) = none := by
  have hk : (toI32 ((1 + 1 : Nat) : Int)).toNat = 2 := by unfold toI32; norm_num; rfl
  simp only [execute, vecAt, frameColumn, emptyColumn, List.replicate, List.length_cons,
    List.length_nil, List.getElem?_cons_zero, List.getElem?_cons_succ, Nat.zero_add, hk,
    rowLoop, rowBody, List.getElem?_nil, outputRows, List.set_cons_zero]

/-- C7. Index safety: called with at least three input columns that all have the
same row count N and with at least one output column, execute finishes without
an out-of-range access, so that every access input_columns[0].rows[b],
input_columns[2].rows[b], input_columns[1] and output_columns[0] it makes is
within bounds. -/
theorem C7_index_safety (L : Vision) (self : OpenFaceEvaluator L) (mem : Mem)
    (ins outs : BatchedColumns) (N : Nat)
    (h3 : 3 ≤ ins.length) (hN : ∀ c ∈ ins, c.rows.length = N) (ho : 1 ≤ outs.length) :
    ∃ st1, execute L self mem ins outs = .ok st1 := by
  obtain ⟨col0, h0, m0⟩ := length_pos_getElem? ins 0 (by omega)
  obtain ⟨col1, h1, _⟩ := length_pos_getElem? ins 1 (by omega)
  obtain ⟨col2, h2, m2⟩ := length_pos_getElem? ins 2 (by omega)
  obtain ⟨out0, rest, hout⟩ : ∃ out0 rest, outs = out0 :: rest := by
    cases outs with
    | nil => simp at ho
    | cons a t => exact ⟨a, t, rfl⟩
  obtain ⟨st1, hex, _⟩ := execute_ok L self mem ins outs col0 col1 col2 h0 h1 h2
    (by rw [hN col0 m0, hN col2 m2]) out0 rest hout
  exact ⟨st1, hex⟩

/-- C7 at the stand-in, a batch of two rows and three columns, and one empty
output column. -/
theorem C7_index_safety_witness :
    ∃ st1, execute standIn standInEvaluator boxMemory
      [frameColumn 2, emptyColumn 2, emptyColumn 2] [⟨[]⟩] = .ok st1 :=
  C7_index_safety standIn standInEvaluator boxMemory
    [frameColumn 2, emptyColumn 2, emptyColumn 2] [⟨[]⟩] 2 (by decide)
    (by simp [frameColumn, emptyColumn]) (by decide)

/-- C1 on the code, at the failing input: on a batch whose three input columns hold
N = 2^31 rows each, called with one output column that holds no rows, the narrowing
of line 40 makes the row count a negative i32, the row loop is not entered and
execute leaves output column 0 with no row instead of N rows. -/
theorem C1_row_count_lost_at_2_pow_31 :
    (frameColumn (2 ^ 31)).rows.length = 2 ^ 31 ∧
    (emptyColumn (2 ^ 31)).rows.length = 2 ^ 31 ∧
    outputRows (execute standIn standInEvaluator boxMemory
      [frameColumn (2 ^ 31), emptyColumn (2 ^ 31), emptyColumn (2 ^ 31)] [⟨[]⟩])
      = some [[]] := by
  have hl : (frameColumn (2 ^ 31)).rows.length = 2 ^ 31 := List.length_replicate _ _
  have hl2 : (emptyColumn (2 ^ 31)).rows.length = 2 ^ 31 := List.length_replicate _ _
  refine ⟨hl, hl2, ?_⟩
  have h : (toI32 ((2 ^ 31 : Nat) : Int)).toNat = 0 := by
    unfold toI32; norm_num
  rw [outputRows_execute standIn standInEvaluator boxMemory _ (frameColumn (2 ^ 31))
    (emptyColumn (2 ^ 31)) (emptyColumn (2 ^ 31)) rfl rfl rfl (by rw [hl, hl2]) ⟨[]⟩ [],
    hl, h]
  rfl

/-- Below the wrap-around of the i32 row count the row-count invariant holds: for
every N up to 2^31 - 1 and every batch whose three input columns each hold N rows,
called with one output column that holds no rows, execute finishes and leaves output
column 0 with exactly N rows, whatever the bounding-box lists contain and whatever
the landmark detector returns. -/
theorem execute_row_count_below_wrap (L : Vision) (self : OpenFaceEvaluator L) (mem : Mem)
    (c0 c1 c2 : Column) (N : Nat) (hN : N < 2 ^ 31)
    (h0 : c0.rows.length = N) (_h1 : c1.rows.length = N) (h2 : c2.rows.length = N) :
    ∃ st1 out0, execute L self mem [c0, c1, c2] [⟨[]⟩] = .ok st1 ∧
      st1.2.2 = [out0] ∧ out0.rows.length = N := by
  obtain ⟨st1, hex, hout, _⟩ := execute_ok L self mem [c0, c1, c2] [⟨[]⟩] c0 c1 c2
    rfl rfl rfl (by rw [h0, h2]) ⟨[]⟩ [] rfl
  refine ⟨st1, _, hex, hout, ?_⟩
  have hk : (toI32 (c0.rows.length : Int)).toNat = N := by
    rw [h0]; exact toI32_toNat_of_lt N hN
  show ([] ++ List.take _ c0.rows).length = N
  rw [hk, List.nil_append, List.length_take, h0, Nat.min_self]

/-- The row-count invariant at the stand-in and a batch of two rows, the second of
which carries a box. -/
theorem execute_row_count_below_wrap_witness :
    ∃ st1 out0, execute standIn standInEvaluator boxMemory
        [frameColumn 2, emptyColumn 2, ⟨[⟨300, 0⟩, ⟨200, 4⟩]⟩] [⟨[]⟩] = .ok st1 ∧
      st1.2.2 = [out0] ∧ out0.rows.length = 2 :=
  execute_row_count_below_wrap standIn standInEvaluator boxMemory
    (frameColumn 2) (emptyColumn 2) ⟨[⟨300, 0⟩, ⟨200, 4⟩]⟩ 2 (by norm_num) rfl rfl rfl

/-- C2 on the code, at the failing input: on a batch of N = 2^32 + 1 rows, called
with one output column that holds no rows, the narrowing of line 40 makes the row
count the i32 value 1, a single row is emitted, and output column 0 has no row at the
index 1, which is below the batch size, to correspond to row 1 of input column 0. -/
theorem C2_row_order_lost_at_2_pow_32_plus_1 :
    (frameColumn (2 ^ 32 + 1)).rows.length = 2 ^ 32 + 1 ∧
    (emptyColumn (2 ^ 32 + 1)).rows.length = 2 ^ 32 + 1 ∧
    1 < 2 ^ 32 + 1 ∧
    outputRows (execute standIn standInEvaluator boxMemory
      [frameColumn (2 ^ 32 + 1), emptyColumn (2 ^ 32 + 1), emptyColumn (2 ^ 32 + 1)] [⟨[]⟩])
      = some [[⟨100, 12⟩]] ∧
    ROW_BUFFER ⟨[⟨100, 12⟩]⟩ 1 = .error .out_of_range := by
  have hl : (frameColumn (2 ^ 32 + 1)).rows.length = 2 ^ 32 + 1 := List.length_replicate _ _
  have hl2 : (emptyColumn (2 ^ 32 + 1)).rows.length = 2 ^ 32 + 1 := List.length_replicate _ _
  refine ⟨hl, hl2, by norm_num, ?_, rfl⟩
  have h : (toI32 ((2 ^ 32 + 1 : Nat) : Int)).toNat = 1 := by
    unfold toI32; norm_num
  rw [outputRows_execute standIn standInEvaluator boxMemory _ (frameColumn (2 ^ 32 + 1))
    (emptyColumn (2 ^ 32 + 1)) (emptyColumn (2 ^ 32 + 1)) rfl rfl rfl (by rw [hl, hl2]) ⟨[]⟩ [],
    hl, h]
  have ht : (frameColumn (2 ^ 32 + 1)).rows.take 1 = [⟨100, 12⟩] := by
    show List.take 1 (List.replicate (2 ^ 32 + 1) _) = _
    rw [List.replicate_succ, List.take_succ_cons, List.take_zero]
  rw [ht]
  rfl

/-- Below the wrap-around of the i32 row count the row order is preserved: for every
batch of N rows with N up to 2^31 - 1, execute appends to output column 0, in
increasing i and with no permutation, one row per input row: the row at index k + i
of output column 0, where k is the number of rows the column held at the call, has
the buffer pointer of input column 0 row i (the data pointer of the image built over
that buffer) and its size. -/
theorem execute_row_order_below_wrap (L : Vision) (self : OpenFaceEvaluator L) (mem : Mem)
    (ins : BatchedColumns) (col0 out0 : Column) (rest : List Column) (N : Nat)
    (hN : N < 2 ^ 31) (h3 : 3 ≤ ins.length) (hall : ∀ c ∈ ins, c.rows.length = N)
    (h0 : ins[0]? = some col0) :
    ∃ st1 out1, execute L self mem ins (out0 :: rest) = .ok st1 ∧
      st1.2.2 = out1 :: rest ∧
      out1.rows = out0.rows ++ col0.rows ∧
      ∀ i, i < N → ∃ r, col0.rows[i]? = some r ∧
        ROW_BUFFER out1 (out0.rows.length + i) = .ok r.buffer ∧
        ROW_SIZE out1 (out0.rows.length + i) = .ok r.size := by
  obtain ⟨col1, h1, _⟩ := length_pos_getElem? ins 1 (by omega)
  obtain ⟨col2, h2, m2⟩ := length_pos_getElem? ins 2 (by omega)
  have m0 : col0 ∈ ins := List.getElem?_mem h0
  have hl0 : col0.rows.length = N := hall col0 m0
  obtain ⟨st1, hex, hout, _⟩ := execute_ok L self mem ins (out0 :: rest) col0 col1 col2
    h0 h1 h2 (by rw [hl0, hall col2 m2]) out0 rest rfl
  have hk : (toI32 (col0.rows.length : Int)).toNat = col0.rows.length := by
    rw [hl0]; exact toI32_toNat_of_lt N hN
  rw [hk, List.take_length] at hout
  refine ⟨st1, _, hex, hout, rfl, ?_⟩
  intro i hi
  have hi0 : i < col0.rows.length := by omega
  refine ⟨col0.rows[i], List.getElem?_eq_getElem hi0, ?_, ?_⟩
  · simp [ROW_BUFFER, List.getElem?_append_right, List.getElem?_eq_getElem hi0]
  · simp [ROW_SIZE, List.getElem?_append_right, List.getElem?_eq_getElem hi0]

/-- The row order at the stand-in, a batch of two frames at the addresses 100 and
112, and the row index 1. -/
theorem execute_row_order_below_wrap_witness :
    ∃ st1 out1, execute standIn standInEvaluator boxMemory
        [⟨[⟨100, 12⟩, ⟨112, 12⟩]⟩, emptyColumn 2, emptyColumn 2] [⟨[]⟩] = .ok st1 ∧
      st1.2.2 = [out1] ∧
      out1.rows = [] ++ [⟨100, 12⟩, ⟨112, 12⟩] ∧
      ∃ r, [(⟨100, 12⟩ : Row), ⟨112, 12⟩][1]? = some r ∧
        ROW_BUFFER out1 (0 + 1) = .ok r.buffer ∧ ROW_SIZE out1 (0 + 1) = .ok r.size := by
  obtain ⟨st1, out1, h1, h2, h3, h4⟩ :=
    execute_row_order_below_wrap standIn standInEvaluator boxMemory
      [⟨[⟨100, 12⟩, ⟨112, 12⟩]⟩, emptyColumn 2, emptyColumn 2] ⟨[⟨100, 12⟩, ⟨112, 12⟩]⟩
      ⟨[]⟩ [] 2 (by norm_num) (by decide) (by simp [emptyColumn]) rfl
  exact ⟨st1, out1, h1, h2, h3, h4 1 (by decide)⟩

/-- C8. No stale camera state: two evaluator states that differ only in the retained
fields fx, fy, cx, cy give the same result of execute on the same memory and batch:
the same final evaluator, fx, fy, cx, cy included, the same memory and the same
output columns, hence the same output row count and sizes. -/
theorem C8_no_stale_camera_state (L : Vision) (s1 s2 : OpenFaceEvaluator L) (mem : Mem)
    (ins outs : BatchedColumns)
    (hf : s1.frame_info_ = s2.frame_info_) (hp : s1.det_parameters = s2.det_parameters)
    (hm : s1.clnf_model = s2.clnf_model) (ha : s1.face_analyser_ = s2.face_analyser_) :
    execute L s1 mem ins outs = execute L s2 mem ins outs := by
  cases s1
  cases s2
  simp only at hf hp hm ha
  subst hf hp hm ha
  rfl

/-- C8 at the stand-in: a fresh evaluator against one that retains the camera values
7, 8, 9, 10 from an earlier batch, on a batch of two rows of which the second carries
a box. -/
theorem C8_no_stale_camera_state_witness :
    execute standIn standInEvaluator boxMemory
        [frameColumn 2, emptyColumn 2, ⟨[⟨300, 0⟩, ⟨200, 4⟩]⟩] [⟨[]⟩]
      = execute standIn { standInEvaluator with fx := 7, fy := 8, cx := 9, cy := 10 } boxMemory
        [frameColumn 2, emptyColumn 2, ⟨[⟨300, 0⟩, ⟨200, 4⟩]⟩] [⟨[]⟩] :=
  C8_no_stale_camera_state standIn standInEvaluator
    { standInEvaluator with fx := 7, fy := 8, cx := 9, cy := 10 } boxMemory
    [frameColumn 2, emptyColumn 2, ⟨[⟨300, 0⟩, ⟨200, 4⟩]⟩] [⟨[]⟩] rfl rfl rfl rfl

end scanner
